import Mathlib

/-!
Verification development for the moda-crypto repository.

The development embeds the core of the system: the Composite Signal Engine
and the Paper Trading Executor, together with the frontend data-conversion
helpers that live in src/frontend/src.  Numeric values are modelled as
rationals.  The backend implementation of the engine and the executor is not
part of the source tree (only its type declarations, callers and the spec
describe it), so those operations are modelled from the spec; the frontend
functions convertFirestoreSignal and calculatePositionMetrics are translated
directly from src/frontend/src/lib/firestore.ts and
src/frontend/src/pages/portfolio.tsx.
-/

namespace ModaCrypto

/-- Signal action, from the union type in src/frontend/src/types/index.ts. -/
inductive Action where
  | buy
  | sell
  | hold
deriving DecidableEq

/-- Trade action, from the union type in src/frontend/src/types/index.ts. -/
inductive TradeAction where
  | buy
  | sell
deriving DecidableEq

/-- Trade status, from the union type in src/frontend/src/types/index.ts.
The source status literal open is a Lean keyword, hence opened. -/
inductive TradeStatus where
  | opened
  | closed
deriving DecidableEq

/-- Snapshot of the weights used for one signal, from the weights_used field
of the Signal interface in src/frontend/src/types/index.ts. -/
structure WeightsUsed where
  ml_weight : ℚ
  rule_weight : ℚ
  sentiment_weight : ℚ
  event_weight : ℚ
deriving DecidableEq

/-- Weight configuration and risk parameters, from the portfolioSettings
shape in src/frontend/src/pages/admin.tsx and spec section 3. -/
structure WeightConfig where
  ml_weight : ℚ
  rule_weight : ℚ
  sentiment_weight : ℚ
  event_weight : ℚ
  min_composite_score : ℚ
  max_positions : ℕ
  position_size_limit : ℚ
  stop_loss_pct : ℚ
  take_profit_pct : ℚ
deriving DecidableEq

/-- A Signal record, from the Signal interface in
src/frontend/src/types/index.ts (the timestamp field is not modelled; no
claim concerns it). -/
structure Signal where
  id : String
  token_id : String
  ml_prob : ℚ
  rule_score : ℚ
  sentiment_score : ℚ
  event_score : ℚ
  composite_score : ℚ
  action : Action
  confidence : ℚ
  weights_used : WeightsUsed
  min_threshold : ℚ
deriving DecidableEq

/-- A Trade record, from the Trade interface in
src/frontend/src/types/index.ts and spec section 3: signal_id is the
triggering signal or none for a risk-triggered close; the timestamp field is
not modelled. -/
structure Trade where
  id : String
  signal_id : Option String
  token_id : String
  action : TradeAction
  quantity : ℚ
  price : ℚ
  total_cost : Option ℚ
  total_proceeds : Option ℚ
  pnl : Option ℚ
  pnl_pct : Option ℚ
  composite_score : ℚ
  status : TradeStatus
deriving DecidableEq

/-- Modelled from the spec: per-token sub-score inputs (spec section 3),
each may be absent on provider failure.  The backend engine that consumes
them is missing from src. -/
structure SubScores where
  ml_probability : Option ℚ
  rule_score : Option ℚ
  sentiment_score : Option ℚ
  event_score : Option ℚ
deriving DecidableEq

/-- Modelled from the spec: the fatal configuration error of spec section 7
(InvalidWeightConfig). -/
inductive EvalError where
  | invalidWeightConfig
deriving DecidableEq

/-- Sum of the four configured weights. -/
def totalWeight (cfg : WeightConfig) : ℚ :=
  cfg.ml_weight + cfg.rule_weight + cfg.sentiment_weight + cfg.event_weight

/-- Modelled from the spec: a weight configuration is valid when no weight
is negative and the weights are not all zero (spec section 7,
InvalidWeightConfig is weights all zero or negative). -/
def configValid (cfg : WeightConfig) : Prop :=
  0 ≤ cfg.ml_weight ∧ 0 ≤ cfg.rule_weight ∧ 0 ≤ cfg.sentiment_weight ∧
    0 ≤ cfg.event_weight ∧ 0 < totalWeight cfg

instance (cfg : WeightConfig) : Decidable (configValid cfg) := by
  unfold configValid
  infer_instance

/-- Modelled from the spec: the normalization denominator, the sum of the
configured weights of the available sub-scores (spec section 4.1 step 1). -/
def availableWeightSum (ss : SubScores) (cfg : WeightConfig) : ℚ :=
  (if ss.ml_probability.isSome then cfg.ml_weight else 0) +
  (if ss.rule_score.isSome then cfg.rule_weight else 0) +
  (if ss.sentiment_score.isSome then cfg.sentiment_weight else 0) +
  (if ss.event_score.isSome then cfg.event_weight else 0)

/-- Modelled from the spec: the renormalized weight of one sub-score, zero
when the sub-score is absent (spec section 4.1 steps 1 and 2). -/
def renormWeight (present : Bool) (w denom : ℚ) : ℚ :=
  if present then w / denom else 0

/-- Modelled from the spec: the pure decision table of spec section 4.1
step 4 — buy at or above the threshold, sell at or below its negation,
hold otherwise. -/
def decideAction (composite minScore : ℚ) : Action :=
  if minScore ≤ composite then Action.buy
  else if composite ≤ -minScore then Action.sell
  else Action.hold

/-- Modelled from the spec: confidence as distance of the composite from
zero relative to the maximum possible magnitude, capped at one (spec
section 4.1 step 5, with max magnitude one). -/
def confidenceOf (composite : ℚ) : ℚ :=
  min 1 |composite|

/-- Modelled from the spec: the Composite Signal Engine entry point
evaluate of spec sections 4.1 and 6.  It refuses an invalid weight
configuration (spec section 7) and otherwise always returns a Signal:
absent sub-scores contribute zero and their weights are excluded from the
normalization denominator; when no weight is available (in particular when
all four sub-scores are absent) it degrades to a hold signal with zero
confidence, stamping the configured weights renormalized over their total. -/
def evaluate (tid : String) (ss : SubScores) (cfg : WeightConfig) :
    Except EvalError Signal :=
  if configValid cfg then
    let denom := availableWeightSum ss cfg
    if denom = 0 then
      Except.ok
        { id := tid
          token_id := tid
          ml_prob := ss.ml_probability.getD 0
          rule_score := ss.rule_score.getD 0
          sentiment_score := ss.sentiment_score.getD 0
          event_score := ss.event_score.getD 0
          composite_score := 0
          action := Action.hold
          confidence := 0
          weights_used :=
            { ml_weight := cfg.ml_weight / totalWeight cfg
              rule_weight := cfg.rule_weight / totalWeight cfg
              sentiment_weight := cfg.sentiment_weight / totalWeight cfg
              event_weight := cfg.event_weight / totalWeight cfg }
          min_threshold := cfg.min_composite_score }
    else
      let wML := renormWeight ss.ml_probability.isSome cfg.ml_weight denom
      let wRule := renormWeight ss.rule_score.isSome cfg.rule_weight denom
      let wSent := renormWeight ss.sentiment_score.isSome cfg.sentiment_weight denom
      let wEvent := renormWeight ss.event_score.isSome cfg.event_weight denom
      let composite := wML * ss.ml_probability.getD 0 + wRule * ss.rule_score.getD 0 +
        wSent * ss.sentiment_score.getD 0 + wEvent * ss.event_score.getD 0
      Except.ok
        { id := tid
          token_id := tid
          ml_prob := ss.ml_probability.getD 0
          rule_score := ss.rule_score.getD 0
          sentiment_score := ss.sentiment_score.getD 0
          event_score := ss.event_score.getD 0
          composite_score := composite
          action := decideAction composite cfg.min_composite_score
          confidence := confidenceOf composite
          weights_used :=
            { ml_weight := wML
              rule_weight := wRule
              sentiment_weight := wSent
              event_weight := wEvent }
          min_threshold := cfg.min_composite_score }
  else
    Except.error EvalError.invalidWeightConfig

/-- Modelled from the spec: a per-token open position of the Position Book
(spec section 3); derived read-time fields of the frontend
PortfolioPosition interface are not stored here. -/
structure Position where
  quantity : ℚ
  avg_cost : ℚ
deriving DecidableEq

/-- Modelled from the spec: rejection reason codes of spec section 7 plus
the idempotency rejection of spec section 4.2. -/
inductive RejectReason where
  | alreadyExecuted
  | positionLimitExceeded
  | sizeLimitExceeded
  | oversellAttempted
deriving DecidableEq

/-- Modelled from the spec: executor state — the Position Book keyed by
token id, the append-only trade ledger, and the consumed signal ids used as
idempotency keys (spec sections 4.2 and 4.3). -/
structure ExecState where
  book : List (String × Position)
  trades : List Trade
  consumed : List String
deriving DecidableEq

/-- Modelled from the spec: the outcome of one executor invocation — the
new state, the appended trade if any, and a rejection reason if any. -/
structure ExecOutcome where
  state : ExecState
  trade : Option Trade
  reason : Option RejectReason
deriving DecidableEq

/-- The empty executor state. -/
def initialState : ExecState :=
  { book := [], trades := [], consumed := [] }

/-- Position Book lookup (get of spec section 4.3). -/
def lookupPos (book : List (String × Position)) (tid : String) : Option Position :=
  (book.find? (fun e => e.1 == tid)).map Prod.snd

/-- Position Book upsert (spec section 4.3): the entry for the token is
replaced by the given position. -/
def setPos (book : List (String × Position)) (tid : String) (p : Position) :
    List (String × Position) :=
  (tid, p) :: book.filter (fun e => ¬ e.1 == tid)

/-- Number of open positions in the book (entries with positive quantity). -/
def positionCount (book : List (String × Position)) : ℕ :=
  book.countP (fun e => decide (0 < e.2.quantity))

/-- Whether the book holds an open (positive-quantity) position for the
token. -/
def hasOpenPosition (book : List (String × Position)) (tid : String) : Bool :=
  match lookupPos book tid with
  | some p => decide (0 < p.quantity)
  | none => false

/-- Modelled from the spec: trade sizing — the trade quantity computed from
the position size limit and the current price (spec section 4.2). -/
def tradeQty (cfg : WeightConfig) (price : ℚ) : ℚ :=
  cfg.position_size_limit / price

/-- Quantity held for a token, zero when the book has no entry. -/
def bookQty (book : List (String × Position)) (tid : String) : ℚ :=
  match lookupPos book tid with
  | some p => p.quantity
  | none => 0

/-- Average cost recorded for a token, zero when the book has no entry. -/
def bookAvg (book : List (String × Position)) (tid : String) : ℚ :=
  match lookupPos book tid with
  | some p => p.avg_cost
  | none => 0

/-- Modelled from the spec: on a full-position sell the originating open
buy trades for the token are marked closed (spec section 4.2). -/
def closeOpenBuys (trades : List Trade) (tid : String) : List Trade :=
  trades.map (fun t =>
    if t.token_id = tid ∧ t.action = TradeAction.buy ∧ t.status = TradeStatus.opened
    then { t with status := TradeStatus.closed }
    else t)

/-- Modelled from the spec: the Paper Trading Executor entry point execute
of spec sections 4.2 and 6.  A signal id already consumed is rejected
(at-most-once execution); a hold signal mutates nothing; a buy opens or
grows a position at the weighted-average cost unless the position limit or
the size limit rejects it; a sell with no open position is rejected as an
oversell no-op, otherwise the full position is sold, the position is zeroed
and a closed sell trade carrying pnl is appended. -/
def execute (sig : Signal) (price : ℚ) (cfg : WeightConfig) (s : ExecState) :
    ExecOutcome :=
  if sig.id ∈ s.consumed then
    { state := s, trade := none, reason := some RejectReason.alreadyExecuted }
  else
    let s' : ExecState := { s with consumed := sig.id :: s.consumed }
    match sig.action with
    | Action.hold => { state := s', trade := none, reason := none }
    | Action.buy =>
      let tq := tradeQty cfg price
      if hasOpenPosition s.book sig.token_id = false ∧
          cfg.max_positions ≤ positionCount s.book then
        { state := s', trade := none, reason := some RejectReason.positionLimitExceeded }
      else if cfg.position_size_limit < tq * price ∨ tq ≤ 0 then
        { state := s', trade := none, reason := some RejectReason.sizeLimitExceeded }
      else
        let q := bookQty s.book sig.token_id
        let a := bookAvg s.book sig.token_id
        let newPos : Position :=
          { quantity := q + tq, avg_cost := (q * a + tq * price) / (q + tq) }
        let t : Trade :=
          { id := sig.id
            signal_id := some sig.id
            token_id := sig.token_id
            action := TradeAction.buy
            quantity := tq
            price := price
            total_cost := some (tq * price)
            total_proceeds := none
            pnl := none
            pnl_pct := none
            composite_score := sig.composite_score
            status := TradeStatus.opened }
        { state := { s' with book := setPos s.book sig.token_id newPos,
                             trades := t :: s.trades }
          trade := some t
          reason := none }
    | Action.sell =>
      match lookupPos s.book sig.token_id with
      | none =>
        { state := s', trade := none, reason := some RejectReason.oversellAttempted }
      | some p =>
        if p.quantity ≤ 0 then
          { state := s', trade := none, reason := some RejectReason.oversellAttempted }
        else
          let pnl := (price - p.avg_cost) * p.quantity
          let t : Trade :=
            { id := sig.id
              signal_id := some sig.id
              token_id := sig.token_id
              action := TradeAction.sell
              quantity := p.quantity
              price := price
              total_cost := none
              total_proceeds := some (p.quantity * price)
              pnl := some pnl
              pnl_pct := some (pnl / (p.quantity * p.avg_cost))
              composite_score := sig.composite_score
              status := TradeStatus.closed }
          { state := { s' with
                        book := setPos s.book sig.token_id
                          { quantity := 0, avg_cost := p.avg_cost },
                        trades := t :: closeOpenBuys s.trades sig.token_id }
            trade := some t
            reason := none }

/-- Modelled from the spec: the stop-loss and take-profit breach condition
of spec section 4.2, on the relative excursion of the current price from
the average cost. -/
def riskTriggered (cfg : WeightConfig) (price : ℚ) (p : Position) : Bool :=
  decide ((price - p.avg_cost) / p.avg_cost ≤ -cfg.stop_loss_pct) ||
    decide (cfg.take_profit_pct ≤ (price - p.avg_cost) / p.avg_cost)

/-- Modelled from the spec: the risk-exit check of spec section 4.2, run
independently of any incoming signal (it takes no Signal argument): when
the token holds an open position whose excursion breaches the stop-loss or
take-profit bound, the full position is closed at the current price and a
closed sell trade with no signal id is appended. -/
def riskStep (cfg : WeightConfig) (price : ℚ) (tid : String) (s : ExecState) :
    ExecOutcome :=
  match lookupPos s.book tid with
  | none => { state := s, trade := none, reason := none }
  | some p =>
    if 0 < p.quantity ∧ riskTriggered cfg price p = true then
      let pnl := (price - p.avg_cost) * p.quantity
      let t : Trade :=
        { id := tid
          signal_id := none
          token_id := tid
          action := TradeAction.sell
          quantity := p.quantity
          price := price
          total_cost := none
          total_proceeds := some (p.quantity * price)
          pnl := some pnl
          pnl_pct := some (pnl / (p.quantity * p.avg_cost))
          composite_score := 0
          status := TradeStatus.closed }
      { state := { s with
                    book := setPos s.book tid { quantity := 0, avg_cost := p.avg_cost },
                    trades := t :: closeOpenBuys s.trades tid }
        trade := some t
        reason := none }
    else
      { state := s, trade := none, reason := none }

/-- Modelled from the spec: the states of the executor reachable from the
empty state by signal executions (with positive price and non-negative size
limit, per the data model of spec section 3) and risk-exit checks. -/
inductive Reachable : ExecState → Prop where
  | init : Reachable initialState
  | exec (sig : Signal) (price : ℚ) (cfg : WeightConfig) (s : ExecState)
      (hp : 0 < price) (hl : 0 ≤ cfg.position_size_limit) (hs : Reachable s) :
      Reachable (execute sig price cfg s).state
  | risk (cfg : WeightConfig) (price : ℚ) (tid : String) (s : ExecState)
      (hs : Reachable s) : Reachable (riskStep cfg price tid s).state

/-- The signal ids carried by the trades of the ledger. -/
def ledgerSignalIds (s : ExecState) : List String :=
  s.trades.filterMap Trade.signal_id

/-- The JavaScript or-with-default on an optional number, as used by the
converters in src/frontend/src/lib/firestore.ts: an absent value or a zero
value (zero is falsy) is replaced by the default. -/
def jsOr (v : Option ℚ) (d : ℚ) : ℚ :=
  match v with
  | none => d
  | some x => if x = 0 then d else x

/-- A raw Firestore signal document as consumed by convertFirestoreSignal
in src/frontend/src/lib/firestore.ts: every numeric field, the action and
the weights snapshot may be absent (the timestamp field is not modelled). -/
structure SignalDoc where
  id : String
  token_id : String
  ml_prob : Option ℚ
  rule_score : Option ℚ
  sentiment_score : Option ℚ
  event_score : Option ℚ
  composite_score : Option ℚ
  action : Option Action
  confidence : Option ℚ
  weights_used : Option WeightsUsed
  min_threshold : Option ℚ
deriving DecidableEq

/-- convertFirestoreSignal from src/frontend/src/lib/firestore.ts lines
214 to 234: absent or falsy numeric fields default to zero, an absent
action defaults to hold, an absent weights_used defaults to the fixed
snapshot 0.4 / 0.3 / 0.2 / 0.1, and an absent or zero min_threshold
defaults to 0.85. -/
def convertFirestoreSignal (doc : SignalDoc) : Signal :=
  { id := doc.id
    token_id := doc.token_id
    ml_prob := jsOr doc.ml_prob 0
    rule_score := jsOr doc.rule_score 0
    sentiment_score := jsOr doc.sentiment_score 0
    event_score := jsOr doc.event_score 0
    composite_score := jsOr doc.composite_score 0
    action := doc.action.getD Action.hold
    confidence := jsOr doc.confidence 0
    weights_used := doc.weights_used.getD
      { ml_weight := 0.4, rule_weight := 0.3, sentiment_weight := 0.2, event_weight := 0.1 }
    min_threshold := jsOr doc.min_threshold 0.85 }

/-- A PortfolioPosition record, from the PortfolioPosition interface in
src/frontend/src/types/index.ts (the last_updated field is not modelled). -/
structure PortfolioPosition where
  token_id : String
  quantity : ℚ
  avg_cost : ℚ
  current_value : ℚ
  cost_basis : ℚ
  pnl : ℚ
  pnl_pct : ℚ
deriving DecidableEq

/-- getTradesForPosition from src/frontend/src/pages/portfolio.tsx lines
92 to 94: the trades whose token_id matches. -/
def getTradesForPosition (allTrades : List Trade) (tokenId : String) : List Trade :=
  allTrades.filter (fun t => t.token_id == tokenId)

/-- The record returned by calculatePositionMetrics in
src/frontend/src/pages/portfolio.tsx. -/
structure PositionMetrics where
  totalBuys : ℚ
  totalSells : ℚ
  tradeCount : ℕ
  avgBuyPrice : ℚ
  avgSellPrice : ℚ
deriving DecidableEq

/-- calculatePositionMetrics from src/frontend/src/pages/portfolio.tsx
lines 96 to 110: sums of buy costs and sell proceeds, the trade count, and
the unweighted arithmetic means of buy and sell prices, each guarded to
zero when there is no matching trade. -/
def calculatePositionMetrics (allTrades : List Trade) (position : PortfolioPosition) :
    PositionMetrics :=
  let trades := getTradesForPosition allTrades position.token_id
  let buyTrades := trades.filter (fun t => t.action == TradeAction.buy)
  let sellTrades := trades.filter (fun t => t.action == TradeAction.sell)
  { totalBuys := (buyTrades.map (fun t => jsOr t.total_cost 0)).sum
    totalSells := (sellTrades.map (fun t => jsOr t.total_proceeds 0)).sum
    tradeCount := trades.length
    avgBuyPrice :=
      if 0 < buyTrades.length then
        (buyTrades.map (fun t => t.price)).sum / (buyTrades.length : ℚ)
      else 0
    avgSellPrice :=
      if 0 < sellTrades.length then
        (sellTrades.map (fun t => t.price)).sum / (sellTrades.length : ℚ)
      else 0 }

/-! Helper lemmas. -/

lemma decideAction_spec (c m : ℚ) (hm : 0 < m) :
    (decideAction c m = Action.buy ↔ m ≤ c) ∧
    (decideAction c m = Action.sell ↔ c ≤ -m) ∧
    (decideAction c m = Action.hold ↔ ¬ m ≤ c ∧ ¬ c ≤ -m) := by
  unfold decideAction
  split_ifs with h1 h2 <;> refine ⟨?_, ?_, ?_⟩ <;> simp_all
  linarith

lemma renormWeight_div (p : Bool) (w d : ℚ) :
    renormWeight p w d = (if p = true then w else 0) / d := by
  cases p <;> simp [renormWeight]

lemma div_sum_bounds (a b c d : ℚ) (ha : 0 ≤ a) (hb : 0 ≤ b) (hc : 0 ≤ c)
    (hd : 0 ≤ d) (hsum : 0 < a + b + c + d) :
    a / (a + b + c + d) + b / (a + b + c + d) + c / (a + b + c + d) +
        d / (a + b + c + d) = 1 ∧
    (0 ≤ a / (a + b + c + d) ∧ a / (a + b + c + d) ≤ 1) ∧
    (0 ≤ b / (a + b + c + d) ∧ b / (a + b + c + d) ≤ 1) ∧
    (0 ≤ c / (a + b + c + d) ∧ c / (a + b + c + d) ≤ 1) ∧
    (0 ≤ d / (a + b + c + d) ∧ d / (a + b + c + d) ≤ 1) := by
  have hne : a + b + c + d ≠ 0 := ne_of_gt hsum
  refine ⟨?_, ⟨?_, ?_⟩, ⟨?_, ?_⟩, ⟨?_, ?_⟩, ⟨?_, ?_⟩⟩
  · rw [div_add_div_same, div_add_div_same, div_add_div_same, div_self hne]
  all_goals
    first
      | exact div_nonneg (by linarith) (le_of_lt hsum)
      | exact (div_le_one hsum).mpr (by linarith)

lemma lookupPos_setPos_self (b : List (String × Position)) (tid : String)
    (p : Position) : lookupPos (setPos b tid p) tid = some p := by
  simp [lookupPos, setPos]

lemma mem_setPos {b : List (String × Position)} {tid : String} {p : Position}
    {e : String × Position} (he : e ∈ setPos b tid p) : e = (tid, p) ∨ e ∈ b := by
  unfold setPos at he
  rcases List.mem_cons.mp he with h | h
  · exact Or.inl h
  · exact Or.inr (List.mem_of_mem_filter h)

lemma lookupPos_mem {b : List (String × Position)} {tid : String} {p : Position}
    (h : lookupPos b tid = some p) : ∃ t, (t, p) ∈ b := by
  unfold lookupPos at h
  rcases Option.map_eq_some'.mp h with ⟨e, he, hep⟩
  refine ⟨e.1, ?_⟩
  subst hep
  simpa using List.mem_of_find?_eq_some he

lemma bookQty_nonneg {b : List (String × Position)} (tid : String)
    (hb : ∀ e ∈ b, 0 ≤ e.2.quantity) : 0 ≤ bookQty b tid := by
  unfold bookQty
  cases h : lookupPos b tid with
  | none => exact le_refl 0
  | some p =>
    obtain ⟨t, ht⟩ := lookupPos_mem h
    exact hb _ ht

lemma ledger_ids_closeOpenBuys (tr : List Trade) (tid : String) :
    (closeOpenBuys tr tid).filterMap Trade.signal_id = tr.filterMap Trade.signal_id := by
  unfold closeOpenBuys
  rw [List.filterMap_map]
  congr 1
  funext t
  simp only [Function.comp_apply]
  split <;> rfl

/-! Branch equations for the executor. -/

lemma execute_already (sig : Signal) (price : ℚ) (cfg : WeightConfig)
    (s : ExecState) (hid : sig.id ∈ s.consumed) :
    execute sig price cfg s =
      { state := s, trade := none, reason := some RejectReason.alreadyExecuted } := by
  simp [execute, hid]

lemma execute_hold (sig : Signal) (price : ℚ) (cfg : WeightConfig)
    (s : ExecState) (hid : sig.id ∉ s.consumed) (hact : sig.action = Action.hold) :
    execute sig price cfg s =
      { state := { s with consumed := sig.id :: s.consumed },
        trade := none, reason := none } := by
  simp [execute, hid, hact]

lemma execute_buy_posLimit (sig : Signal) (price : ℚ) (cfg : WeightConfig)
    (s : ExecState) (hid : sig.id ∉ s.consumed) (hact : sig.action = Action.buy)
    (hg : hasOpenPosition s.book sig.token_id = false ∧
      cfg.max_positions ≤ positionCount s.book) :
    execute sig price cfg s =
      { state := { s with consumed := sig.id :: s.consumed },
        trade := none, reason := some RejectReason.positionLimitExceeded } := by
  simp [execute, hid, hact, hg.1, hg.2]

lemma execute_buy_sizeLimit (sig : Signal) (price : ℚ) (cfg : WeightConfig)
    (s : ExecState) (hid : sig.id ∉ s.consumed) (hact : sig.action = Action.buy)
    (hg1 : ¬ (hasOpenPosition s.book sig.token_id = false ∧
      cfg.max_positions ≤ positionCount s.book))
    (hg2 : cfg.position_size_limit < tradeQty cfg price * price ∨
      tradeQty cfg price ≤ 0) :
    execute sig price cfg s =
      { state := { s with consumed := sig.id :: s.consumed },
        trade := none, reason := some RejectReason.sizeLimitExceeded } := by
  simp only [execute, if_neg hid, hact]
  rw [if_neg hg1, if_pos hg2]

/-- The trade appended by a successful buy execution. -/
def buyTrade (sig : Signal) (price : ℚ) (cfg : WeightConfig) : Trade :=
  { id := sig.id
    signal_id := some sig.id
    token_id := sig.token_id
    action := TradeAction.buy
    quantity := tradeQty cfg price
    price := price
    total_cost := some (tradeQty cfg price * price)
    total_proceeds := none
    pnl := none
    pnl_pct := none
    composite_score := sig.composite_score
    status := TradeStatus.opened }

/-- The position written by a successful buy execution: the quantity grows
by the trade quantity and the average cost is the quantity-weighted mean. -/
def buyPosition (book : List (String × Position)) (tid : String)
    (price : ℚ) (cfg : WeightConfig) : Position :=
  { quantity := bookQty book tid + tradeQty cfg price
    avg_cost := (bookQty book tid * bookAvg book tid + tradeQty cfg price * price) /
      (bookQty book tid + tradeQty cfg price) }

lemma execute_buy_ok (sig : Signal) (price : ℚ) (cfg : WeightConfig)
    (s : ExecState) (hid : sig.id ∉ s.consumed) (hact : sig.action = Action.buy)
    (hg1 : ¬ (hasOpenPosition s.book sig.token_id = false ∧
      cfg.max_positions ≤ positionCount s.book))
    (hg2 : ¬ (cfg.position_size_limit < tradeQty cfg price * price ∨
      tradeQty cfg price ≤ 0)) :
    execute sig price cfg s =
      { state := { book := setPos s.book sig.token_id
                     (buyPosition s.book sig.token_id price cfg),
                   trades := buyTrade sig price cfg :: s.trades,
                   consumed := sig.id :: s.consumed },
        trade := some (buyTrade sig price cfg), reason := none } := by
  simp only [execute, if_neg hid, hact]
  rw [if_neg hg1, if_neg hg2]
  rfl

/-- The trade appended by a full-position sell execution. -/
def sellTrade (sig : Signal) (price : ℚ) (p : Position) : Trade :=
  { id := sig.id
    signal_id := some sig.id
    token_id := sig.token_id
    action := TradeAction.sell
    quantity := p.quantity
    price := price
    total_cost := none
    total_proceeds := some (p.quantity * price)
    pnl := some ((price - p.avg_cost) * p.quantity)
    pnl_pct := some ((price - p.avg_cost) * p.quantity / (p.quantity * p.avg_cost))
    composite_score := sig.composite_score
    status := TradeStatus.closed }

lemma execute_sell_none (sig : Signal) (price : ℚ) (cfg : WeightConfig)
    (s : ExecState) (hid : sig.id ∉ s.consumed) (hact : sig.action = Action.sell)
    (hlp : lookupPos s.book sig.token_id = none) :
    execute sig price cfg s =
      { state := { s with consumed := sig.id :: s.consumed },
        trade := none, reason := some RejectReason.oversellAttempted } := by
  simp [execute, hid, hact, hlp]

lemma execute_sell_empty (sig : Signal) (price : ℚ) (cfg : WeightConfig)
    (s : ExecState) (p : Position) (hid : sig.id ∉ s.consumed)
    (hact : sig.action = Action.sell)
    (hlp : lookupPos s.book sig.token_id = some p) (hle : p.quantity ≤ 0) :
    execute sig price cfg s =
      { state := { s with consumed := sig.id :: s.consumed },
        trade := none, reason := some RejectReason.oversellAttempted } := by
  simp [execute, hid, hact, hlp, hle]

lemma execute_sell_ok (sig : Signal) (price : ℚ) (cfg : WeightConfig)
    (s : ExecState) (p : Position) (hid : sig.id ∉ s.consumed)
    (hact : sig.action = Action.sell)
    (hlp : lookupPos s.book sig.token_id = some p) (hgt : 0 < p.quantity) :
    execute sig price cfg s =
      { state := { book := setPos s.book sig.token_id
                     { quantity := 0, avg_cost := p.avg_cost },
                   trades := sellTrade sig price p :: closeOpenBuys s.trades sig.token_id,
                   consumed := sig.id :: s.consumed },
        trade := some (sellTrade sig price p), reason := none } := by
  simp only [execute, if_neg hid, hact, hlp]
  rw [if_neg (not_le.mpr hgt)]
  rfl

lemma riskStep_none (cfg : WeightConfig) (price : ℚ) (tid : String)
    (s : ExecState) (hlp : lookupPos s.book tid = none) :
    riskStep cfg price tid s = { state := s, trade := none, reason := none } := by
  simp [riskStep, hlp]

lemma riskStep_skip (cfg : WeightConfig) (price : ℚ) (tid : String)
    (s : ExecState) (p : Position) (hlp : lookupPos s.book tid = some p)
    (hc : ¬ (0 < p.quantity ∧ riskTriggered cfg price p = true)) :
    riskStep cfg price tid s = { state := s, trade := none, reason := none } := by
  simp only [riskStep, hlp]
  rw [if_neg hc]

/-- The trade appended by a risk-triggered close. -/
def riskTrade (tid : String) (price : ℚ) (p : Position) : Trade :=
  { id := tid
    signal_id := none
    token_id := tid
    action := TradeAction.sell
    quantity := p.quantity
    price := price
    total_cost := none
    total_proceeds := some (p.quantity * price)
    pnl := some ((price - p.avg_cost) * p.quantity)
    pnl_pct := some ((price - p.avg_cost) * p.quantity / (p.quantity * p.avg_cost))
    composite_score := 0
    status := TradeStatus.closed }

lemma riskStep_close (cfg : WeightConfig) (price : ℚ) (tid : String)
    (s : ExecState) (p : Position) (hlp : lookupPos s.book tid = some p)
    (hc : 0 < p.quantity ∧ riskTriggered cfg price p = true) :
    riskStep cfg price tid s =
      { state := { book := setPos s.book tid { quantity := 0, avg_cost := p.avg_cost },
                   trades := riskTrade tid price p :: closeOpenBuys s.trades tid,
                   consumed := s.consumed },
        trade := some (riskTrade tid price p), reason := none } := by
  simp only [riskStep, hlp]
  rw [if_pos hc]
  rfl

/-- The executor state invariant: no negative position quantity, no
duplicated signal id in the trade ledger, and every traded signal id
already consumed. -/
def StateInv (s : ExecState) : Prop :=
  (∀ e ∈ s.book, 0 ≤ e.2.quantity) ∧
  (ledgerSignalIds s).Nodup ∧
  (∀ id ∈ ledgerSignalIds s, id ∈ s.consumed)

lemma execute_inv (sig : Signal) (price : ℚ) (cfg : WeightConfig) (s : ExecState)
    (h : StateInv s) : StateInv (execute sig price cfg s).state := by
  obtain ⟨hbook, hnodup, hsub⟩ := h
  have hconsume : ∀ id ∈ ledgerSignalIds s, id ∈ sig.id :: s.consumed :=
    fun i hi => List.mem_cons_of_mem _ (hsub i hi)
  by_cases hid : sig.id ∈ s.consumed
  · rw [execute_already sig price cfg s hid]
    exact ⟨hbook, hnodup, hsub⟩
  cases hact : sig.action with
  | hold =>
    rw [execute_hold sig price cfg s hid hact]
    exact ⟨hbook, hnodup, hconsume⟩
  | buy =>
    by_cases hg1 : hasOpenPosition s.book sig.token_id = false ∧
        cfg.max_positions ≤ positionCount s.book
    · rw [execute_buy_posLimit sig price cfg s hid hact hg1]
      exact ⟨hbook, hnodup, hconsume⟩
    by_cases hg2 : cfg.position_size_limit < tradeQty cfg price * price ∨
        tradeQty cfg price ≤ 0
    · rw [execute_buy_sizeLimit sig price cfg s hid hact hg1 hg2]
      exact ⟨hbook, hnodup, hconsume⟩
    rw [execute_buy_ok sig price cfg s hid hact hg1 hg2]
    rw [not_or, not_lt, not_le] at hg2
    refine ⟨?_, ?_, ?_⟩
    · intro e he
      rcases mem_setPos he with he | he
      · subst he
        have hq := bookQty_nonneg (b := s.book) sig.token_id hbook
        have htq := hg2.2
        simp only [buyPosition]
        linarith
      · exact hbook _ he
    · simp only [ledgerSignalIds, List.filterMap_cons, buyTrade]
      exact List.Nodup.cons (fun hin => hid (hsub _ hin)) hnodup
    · intro i hi
      simp only [ledgerSignalIds, List.filterMap_cons, buyTrade] at hi
      rcases List.mem_cons.mp hi with hi | hi
      · exact hi ▸ List.mem_cons_self _ _
      · exact hconsume i hi
  | sell =>
    cases hlp : lookupPos s.book sig.token_id with
    | none =>
      rw [execute_sell_none sig price cfg s hid hact hlp]
      exact ⟨hbook, hnodup, hconsume⟩
    | some p =>
      by_cases hle : p.quantity ≤ 0
      · rw [execute_sell_empty sig price cfg s p hid hact hlp hle]
        exact ⟨hbook, hnodup, hconsume⟩
      rw [execute_sell_ok sig price cfg s p hid hact hlp (not_le.mp hle)]
      refine ⟨?_, ?_, ?_⟩
      · intro e he
        rcases mem_setPos he with he | he
        · subst he; simp
        · exact hbook _ he
      · simp only [ledgerSignalIds, List.filterMap_cons, sellTrade,
          ledger_ids_closeOpenBuys]
        exact List.Nodup.cons (fun hin => hid (hsub _ hin)) hnodup
      · intro i hi
        simp only [ledgerSignalIds, List.filterMap_cons, sellTrade,
          ledger_ids_closeOpenBuys] at hi
        rcases List.mem_cons.mp hi with hi | hi
        · exact hi ▸ List.mem_cons_self _ _
        · exact hconsume i hi

lemma riskStep_inv (cfg : WeightConfig) (price : ℚ) (tid : String) (s : ExecState)
    (h : StateInv s) : StateInv (riskStep cfg price tid s).state := by
  obtain ⟨hbook, hnodup, hsub⟩ := h
  cases hlp : lookupPos s.book tid with
  | none =>
    rw [riskStep_none cfg price tid s hlp]
    exact ⟨hbook, hnodup, hsub⟩
  | some p =>
    by_cases hc : 0 < p.quantity ∧ riskTriggered cfg price p = true
    · rw [riskStep_close cfg price tid s p hlp hc]
      refine ⟨?_, ?_, ?_⟩
      · intro e he
        rcases mem_setPos he with he | he
        · subst he; simp
        · exact hbook _ he
      · simpa only [ledgerSignalIds, List.filterMap_cons, riskTrade,
          ledger_ids_closeOpenBuys] using hnodup
      · intro i hi
        simp only [ledgerSignalIds, List.filterMap_cons, riskTrade,
          ledger_ids_closeOpenBuys] at hi
        exact hsub i hi
    · rw [riskStep_skip cfg price tid s p hlp hc]
      exact ⟨hbook, hnodup, hsub⟩

lemma reachable_inv (s : ExecState) (h : Reachable s) : StateInv s := by
  induction h with
  | init => exact ⟨by simp [initialState], by simp [ledgerSignalIds, initialState],
      by simp [ledgerSignalIds, initialState]⟩
  | exec sig price cfg s hp hl hs ih => exact execute_inv sig price cfg s ih
  | risk cfg price tid s hs ih => exact riskStep_inv cfg price tid s ih

/-! Fixtures used by concrete witnesses. -/

/-- A valid weight configuration with the default weights of the frontend
converter and the documented 0.85 threshold. -/
def cfg0 : WeightConfig :=
  { ml_weight := 0.4
    rule_weight := 0.3
    sentiment_weight := 0.2
    event_weight := 0.1
    min_composite_score := 0.85
    max_positions := 10
    position_size_limit := 1000
    stop_loss_pct := 0.1
    take_profit_pct := 0.2 }

/-- Sub-scores with all four providers present and equal. -/
def ssAll (x : ℚ) : SubScores :=
  { ml_probability := some x
    rule_score := some x
    sentiment_score := some x
    event_score := some x }

/-- The signal produced by evaluate on the four sub-scores 0.86 under
cfg0. -/
def sig86 : Signal :=
  { id := "tok"
    token_id := "tok"
    ml_prob := 0.86
    rule_score := 0.86
    sentiment_score := 0.86
    event_score := 0.86
    composite_score := 0.86
    action := Action.buy
    confidence := 0.86
    weights_used :=
      { ml_weight := 0.4, rule_weight := 0.3, sentiment_weight := 0.2, event_weight := 0.1 }
    min_threshold := 0.85 }

/-- The signal produced by evaluate on the four sub-scores 0.84 under
cfg0. -/
def sig84 : Signal :=
  { sig86 with
    ml_prob := 0.84
    rule_score := 0.84
    sentiment_score := 0.84
    event_score := 0.84
    composite_score := 0.84
    action := Action.hold
    confidence := 0.84 }

/-- The signal produced by evaluate on the four sub-scores negative 0.86
under cfg0. -/
def sigN86 : Signal :=
  { sig86 with
    ml_prob := -0.86
    rule_score := -0.86
    sentiment_score := -0.86
    event_score := -0.86
    composite_score := -0.86
    action := Action.sell
    confidence := 0.86 }

lemma evaluate_ssAll86 : evaluate "tok" (ssAll 0.86) cfg0 = Except.ok sig86 := by
  simp only [evaluate, cfg0, ssAll, availableWeightSum, renormWeight, decideAction,
    confidenceOf, sig86]
  norm_num [configValid, totalWeight]
  rw [abs_div, min_def]
  norm_num

lemma evaluate_ssAll84 : evaluate "tok" (ssAll 0.84) cfg0 = Except.ok sig84 := by
  simp only [evaluate, cfg0, ssAll, availableWeightSum, renormWeight, decideAction,
    confidenceOf, sig84, sig86]
  norm_num [configValid, totalWeight]
  rw [abs_div, min_def]
  norm_num

lemma evaluate_ssAllN86 : evaluate "tok" (ssAll (-0.86)) cfg0 = Except.ok sigN86 := by
  simp only [evaluate, cfg0, ssAll, availableWeightSum, renormWeight, decideAction,
    confidenceOf, sigN86, sig86]
  norm_num [configValid, totalWeight]
  rw [abs_div, min_def]
  norm_num

/-! Claim theorems. -/

/-- Claim C1: for every evaluation against a weight configuration with a
positive threshold, the emitted signal has action buy exactly when the
composite score is at least the threshold, sell exactly when it is at most
the negated threshold, and hold otherwise. -/
theorem evaluate_action_threshold (tid : String) (ss : SubScores) (cfg : WeightConfig)
    (s : Signal) (hmin : 0 < cfg.min_composite_score)
    (hs : evaluate tid ss cfg = Except.ok s) :
    (s.action = Action.buy ↔ cfg.min_composite_score ≤ s.composite_score) ∧
    (s.action = Action.sell ↔ s.composite_score ≤ -cfg.min_composite_score) ∧
    (s.action = Action.hold ↔
      ¬ cfg.min_composite_score ≤ s.composite_score ∧
      ¬ s.composite_score ≤ -cfg.min_composite_score) := by
  simp only [evaluate] at hs
  split_ifs at hs with hv hd
  · injection hs with h
    subst h
    refine ⟨?_, ?_, ?_⟩ <;> simp <;> exact hmin
  · injection hs with h
    subst h
    exact decideAction_spec _ _ hmin

/-- Witness for claim C1: under cfg0 (threshold 0.85) a composite of 0.86
yields buy, 0.84 yields hold, and negative 0.86 yields sell. -/
theorem evaluate_action_threshold_witness :
    sig86.action = Action.buy ∧ sig84.action = Action.hold ∧
      sigN86.action = Action.sell := by
  have h86 := evaluate_action_threshold "tok" (ssAll 0.86) cfg0 sig86
    (by norm_num [cfg0]) evaluate_ssAll86
  have h84 := evaluate_action_threshold "tok" (ssAll 0.84) cfg0 sig84
    (by norm_num [cfg0]) evaluate_ssAll84
  have hN86 := evaluate_action_threshold "tok" (ssAll (-0.86)) cfg0 sigN86
    (by norm_num [cfg0]) evaluate_ssAllN86
  refine ⟨h86.1.mpr ?_, (h84.2.2).mpr ⟨?_, ?_⟩, (hN86.2.1).mpr ?_⟩ <;>
    norm_num [sig86, sig84, sigN86, cfg0]

/-- Sub-scores with only the ml and event providers present. -/
def ssPartial : SubScores :=
  { ml_probability := some 0.9
    rule_score := none
    sentiment_score := none
    event_score := some 0.8 }

/-- The signal produced by evaluate on ssPartial under cfg0: the ml and
event weights are renormalized to 0.8 and 0.2. -/
def sigPartial : Signal :=
  { id := "tok"
    token_id := "tok"
    ml_prob := 0.9
    rule_score := 0
    sentiment_score := 0
    event_score := 0.8
    composite_score := 0.88
    action := Action.buy
    confidence := 0.88
    weights_used :=
      { ml_weight := 0.8, rule_weight := 0, sentiment_weight := 0, event_weight := 0.2 }
    min_threshold := 0.85 }

lemma evaluate_ssPartial : evaluate "tok" ssPartial cfg0 = Except.ok sigPartial := by
  simp only [evaluate, cfg0, ssPartial, availableWeightSum, renormWeight, decideAction,
    confidenceOf, sigPartial]
  norm_num [configValid, totalWeight]
  rw [abs_div, min_def]
  norm_num

/-- Claim C5: every signal emitted by evaluate, for any subset of available
sub-scores, carries a weights_used snapshot whose entries sum to exactly
one and each lie between zero and one. -/
theorem evaluate_weights_renormalized (tid : String) (ss : SubScores)
    (cfg : WeightConfig) (s : Signal) (hs : evaluate tid ss cfg = Except.ok s) :
    s.weights_used.ml_weight + s.weights_used.rule_weight +
        s.weights_used.sentiment_weight + s.weights_used.event_weight = 1 ∧
    (0 ≤ s.weights_used.ml_weight ∧ s.weights_used.ml_weight ≤ 1) ∧
    (0 ≤ s.weights_used.rule_weight ∧ s.weights_used.rule_weight ≤ 1) ∧
    (0 ≤ s.weights_used.sentiment_weight ∧ s.weights_used.sentiment_weight ≤ 1) ∧
    (0 ≤ s.weights_used.event_weight ∧ s.weights_used.event_weight ≤ 1) := by
  simp only [evaluate] at hs
  split_ifs at hs with hv hd
  · obtain ⟨h1, h2, h3, h4, h5⟩ := hv
    injection hs with h
    subst h
    simpa [totalWeight] using
      div_sum_bounds cfg.ml_weight cfg.rule_weight cfg.sentiment_weight
        cfg.event_weight h1 h2 h3 h4 (by simpa [totalWeight] using h5)
  · obtain ⟨h1, h2, h3, h4, _⟩ := hv
    injection hs with h
    subst h
    have e1 : 0 ≤ (if ss.ml_probability.isSome = true then cfg.ml_weight else 0) := by
      split <;> simp [h1]
    have e2 : 0 ≤ (if ss.rule_score.isSome = true then cfg.rule_weight else 0) := by
      split <;> simp [h2]
    have e3 : 0 ≤ (if ss.sentiment_score.isSome = true then cfg.sentiment_weight else 0) := by
      split <;> simp [h3]
    have e4 : 0 ≤ (if ss.event_score.isSome = true then cfg.event_weight else 0) := by
      split <;> simp [h4]
    have hne : (if ss.ml_probability.isSome = true then cfg.ml_weight else 0) +
        (if ss.rule_score.isSome = true then cfg.rule_weight else 0) +
        (if ss.sentiment_score.isSome = true then cfg.sentiment_weight else 0) +
        (if ss.event_score.isSome = true then cfg.event_weight else 0) ≠ 0 := by
      simpa [availableWeightSum] using hd
    have hsum : 0 < (if ss.ml_probability.isSome = true then cfg.ml_weight else 0) +
        (if ss.rule_score.isSome = true then cfg.rule_weight else 0) +
        (if ss.sentiment_score.isSome = true then cfg.sentiment_weight else 0) +
        (if ss.event_score.isSome = true then cfg.event_weight else 0) :=
      lt_of_le_of_ne (by linarith) (Ne.symm hne)
    simpa [renormWeight_div, availableWeightSum] using
      div_sum_bounds _ _ _ _ e1 e2 e3 e4 hsum

/-- Witness for claim C5: with only the ml and event sub-scores present
under cfg0 the stamped weights are 0.8, 0, 0, 0.2 — they sum to one and
each lies in the unit interval. -/
theorem evaluate_weights_renormalized_witness :
    sigPartial.weights_used.ml_weight + sigPartial.weights_used.rule_weight +
        sigPartial.weights_used.sentiment_weight +
        sigPartial.weights_used.event_weight = 1 ∧
    0 ≤ sigPartial.weights_used.ml_weight ∧ sigPartial.weights_used.ml_weight ≤ 1 := by
  have h := evaluate_weights_renormalized "tok" ssPartial cfg0 sigPartial
    evaluate_ssPartial
  exact ⟨h.1, h.2.1.1, h.2.1.2⟩

/-- Claim C6: evaluate never fails for missing sub-score data — under any
valid configuration it returns a well-formed signal for every combination
of absent sub-scores, and when all four sub-scores are absent the returned
signal has action hold and confidence zero. -/
theorem evaluate_never_fails_on_missing (tid : String) (ss : SubScores)
    (cfg : WeightConfig) (hv : configValid cfg) :
    (∃ s, evaluate tid ss cfg = Except.ok s) ∧
    (ss.ml_probability = none → ss.rule_score = none → ss.sentiment_score = none →
      ss.event_score = none → ∀ s, evaluate tid ss cfg = Except.ok s →
        s.action = Action.hold ∧ s.confidence = 0) := by
  constructor
  · simp only [evaluate, if_pos hv]
    split_ifs with hd
    · exact ⟨_, rfl⟩
    · exact ⟨_, rfl⟩
  · intro h1 h2 h3 h4 s hs
    simp only [evaluate, if_pos hv, availableWeightSum, h1, h2, h3, h4,
      Option.isSome_none, Bool.false_eq_true, if_false, add_zero, if_pos] at hs
    injection hs with h
    subst h
    exact ⟨rfl, rfl⟩

/-- Witness for claim C6: under cfg0 with all four sub-scores absent,
evaluate returns a signal, and that signal holds with zero confidence. -/
theorem evaluate_never_fails_on_missing_witness :
    (∃ s, evaluate "tok" (SubScores.mk none none none none) cfg0 = Except.ok s) ∧
    ((evaluate "tok" (SubScores.mk none none none none) cfg0).toOption.map
        Signal.action = some Action.hold) := by
  have h := evaluate_never_fails_on_missing "tok" (SubScores.mk none none none none)
    cfg0 (by norm_num [configValid, totalWeight, cfg0])
  obtain ⟨⟨s, hs⟩, hdeg⟩ := h
  have hact := hdeg rfl rfl rfl rfl s hs
  refine ⟨⟨s, hs⟩, by rw [hs]; simp only [Except.toOption, Option.map]; rw [hact.1]⟩

lemma execute_consumes (sig : Signal) (price : ℚ) (cfg : WeightConfig)
    (s : ExecState) : sig.id ∈ (execute sig price cfg s).state.consumed := by
  by_cases hid : sig.id ∈ s.consumed
  · rw [execute_already sig price cfg s hid]
    exact hid
  cases hact : sig.action with
  | hold =>
    rw [execute_hold sig price cfg s hid hact]
    exact List.mem_cons_self _ _
  | buy =>
    by_cases hg1 : hasOpenPosition s.book sig.token_id = false ∧
        cfg.max_positions ≤ positionCount s.book
    · rw [execute_buy_posLimit sig price cfg s hid hact hg1]
      exact List.mem_cons_self _ _
    by_cases hg2 : cfg.position_size_limit < tradeQty cfg price * price ∨
        tradeQty cfg price ≤ 0
    · rw [execute_buy_sizeLimit sig price cfg s hid hact hg1 hg2]
      exact List.mem_cons_self _ _
    rw [execute_buy_ok sig price cfg s hid hact hg1 hg2]
    exact List.mem_cons_self _ _
  | sell =>
    cases hlp : lookupPos s.book sig.token_id with
    | none =>
      rw [execute_sell_none sig price cfg s hid hact hlp]
      exact List.mem_cons_self _ _
    | some p =>
      by_cases hle : p.quantity ≤ 0
      · rw [execute_sell_empty sig price cfg s p hid hact hlp hle]
        exact List.mem_cons_self _ _
      rw [execute_sell_ok sig price cfg s p hid hact hlp (not_le.mp hle)]
      exact List.mem_cons_self _ _

/-- A buy signal fixture with the given id for the token tok. -/
def sigBuy (sid : String) : Signal :=
  { id := sid
    token_id := "tok"
    ml_prob := 0.9
    rule_score := 0.9
    sentiment_score := 0.9
    event_score := 0.9
    composite_score := 0.9
    action := Action.buy
    confidence := 0.9
    weights_used :=
      { ml_weight := 0.4, rule_weight := 0.3, sentiment_weight := 0.2, event_weight := 0.1 }
    min_threshold := 0.85 }

/-- A sell signal fixture with the given id for the token tok. -/
def sigSell (sid : String) : Signal :=
  { sigBuy sid with action := Action.sell, composite_score := -0.9 }

/-- Claim C2: a buy execution against an existing position moves the
average cost to the quantity-weighted mean of the old position and the new
trade, while a sell execution leaves avg_cost unchanged and only zeroes the
quantity. -/
theorem execute_avg_cost_update :
    (∀ (sig : Signal) (price : ℚ) (cfg : WeightConfig) (s : ExecState) (q a : ℚ),
      sig.action = Action.buy → sig.id ∉ s.consumed →
      lookupPos s.book sig.token_id = some { quantity := q, avg_cost := a } →
      0 < q → 0 < price → 0 < cfg.position_size_limit →
      lookupPos (execute sig price cfg s).state.book sig.token_id =
        some { quantity := q + tradeQty cfg price,
               avg_cost := (q * a + tradeQty cfg price * price) /
                 (q + tradeQty cfg price) }) ∧
    (∀ (sig : Signal) (price : ℚ) (cfg : WeightConfig) (s : ExecState) (q a : ℚ),
      sig.action = Action.sell → sig.id ∉ s.consumed →
      lookupPos s.book sig.token_id = some { quantity := q, avg_cost := a } →
      0 < q →
      lookupPos (execute sig price cfg s).state.book sig.token_id =
        some { quantity := 0, avg_cost := a }) := by
  constructor
  · intro sig price cfg s q a hact hid hlp hq hp hl
    have hopen : hasOpenPosition s.book sig.token_id = true := by
      simp [hasOpenPosition, hlp, hq]
    have hg1 : ¬ (hasOpenPosition s.book sig.token_id = false ∧
        cfg.max_positions ≤ positionCount s.book) := by
      rw [hopen]
      simp
    have htq : 0 < tradeQty cfg price := div_pos hl hp
    have htqp : tradeQty cfg price * price = cfg.position_size_limit :=
      div_mul_cancel₀ _ (ne_of_gt hp)
    have hg2 : ¬ (cfg.position_size_limit < tradeQty cfg price * price ∨
        tradeQty cfg price ≤ 0) := by
      rw [htqp, not_or, not_lt, not_le]
      exact ⟨le_refl _, htq⟩
    rw [execute_buy_ok sig price cfg s hid hact hg1 hg2, lookupPos_setPos_self]
    simp [buyPosition, bookQty, bookAvg, hlp]
  · intro sig price cfg s q a hact hid hlp hq
    rw [execute_sell_ok sig price cfg s _ hid hact hlp hq, lookupPos_setPos_self]

/-- The configuration cfg0 with the position size limit lowered to 650, so
that a buy at price 130 trades exactly five units. -/
def cfgB : WeightConfig :=
  { cfg0 with position_size_limit := 650 }

/-- Witness for claim C2: buying 10 units at 100 from the empty state and
then 5 units at 130 leaves a position of 15 units at average cost 110. -/
theorem execute_avg_cost_update_witness :
    lookupPos (execute (sigBuy "s2") 130 cfgB
        (execute (sigBuy "s1") 100 cfg0 initialState).state).state.book "tok" =
      some { quantity := 15, avg_cost := 110 } := by
  have hg1 : ¬ (hasOpenPosition initialState.book (sigBuy "s1").token_id = false ∧
      cfg0.max_positions ≤ positionCount initialState.book) := by
    simp [cfg0, positionCount, initialState]
  have hg2 : ¬ (cfg0.position_size_limit < tradeQty cfg0 100 * 100 ∨
      tradeQty cfg0 100 ≤ 0) := by
    norm_num [tradeQty, cfg0]
  have hstep := execute_buy_ok (sigBuy "s1") 100 cfg0 initialState
    (by simp [initialState]) rfl hg1 hg2
  have h1 : lookupPos (execute (sigBuy "s1") 100 cfg0 initialState).state.book
      (sigBuy "s2").token_id = some { quantity := 10, avg_cost := 100 } := by
    rw [hstep]
    show lookupPos (setPos _ _ _) _ = _
    have : (sigBuy "s2").token_id = (sigBuy "s1").token_id := rfl
    rw [this, lookupPos_setPos_self]
    norm_num [buyPosition, bookQty, bookAvg, lookupPos, initialState, tradeQty, cfg0]
  have hcons : (sigBuy "s2").id ∉
      (execute (sigBuy "s1") 100 cfg0 initialState).state.consumed := by
    rw [hstep]
    simp [initialState, sigBuy]
  have h := execute_avg_cost_update.1 (sigBuy "s2") 130 cfgB
    (execute (sigBuy "s1") 100 cfg0 initialState).state 10 100 rfl hcons h1
    (by norm_num) (by norm_num) (by norm_num [cfgB, cfg0])
  have e2 : (sigBuy "s2").token_id = "tok" := rfl
  rw [e2] at h
  rw [h]
  norm_num [tradeQty, cfgB, cfg0]

/-- Claim C3: a sell execution of a full position of quantity q at average
cost a and price p appends a closed sell trade with pnl equal to
(p - a) times q and pnl_pct equal to pnl over the cost basis q times a,
and zeroes the position. -/
theorem execute_sell_pnl (sig : Signal) (price : ℚ) (cfg : WeightConfig)
    (s : ExecState) (q a : ℚ) (hact : sig.action = Action.sell)
    (hid : sig.id ∉ s.consumed)
    (hlp : lookupPos s.book sig.token_id = some { quantity := q, avg_cost := a })
    (hq : 0 < q) :
    (execute sig price cfg s).trade = some
      { id := sig.id
        signal_id := some sig.id
        token_id := sig.token_id
        action := TradeAction.sell
        quantity := q
        price := price
        total_cost := none
        total_proceeds := some (q * price)
        pnl := some ((price - a) * q)
        pnl_pct := some ((price - a) * q / (q * a))
        composite_score := sig.composite_score
        status := TradeStatus.closed } ∧
    lookupPos (execute sig price cfg s).state.book sig.token_id =
      some { quantity := 0, avg_cost := a } := by
  rw [execute_sell_ok sig price cfg s _ hid hact hlp hq]
  exact ⟨rfl, lookupPos_setPos_self _ _ _⟩

/-- The executor state holding the single position of 15 units at average
cost 110 for the token tok. -/
def stSell : ExecState :=
  { book := [("tok", { quantity := 15, avg_cost := 110 })]
    trades := []
    consumed := [] }

/-- Witness for claim C3: selling the full 15-unit position at price 150
from average cost 110 yields pnl 600, pnl_pct 4/11, a closed trade and a
zeroed position. -/
theorem execute_sell_pnl_witness :
    ((execute (sigSell "s3") 150 cfg0 stSell).trade.map Trade.pnl =
      some (some 600)) ∧
    ((execute (sigSell "s3") 150 cfg0 stSell).trade.map Trade.pnl_pct =
      some (some (4/11))) ∧
    ((execute (sigSell "s3") 150 cfg0 stSell).trade.map Trade.status =
      some TradeStatus.closed) ∧
    lookupPos (execute (sigSell "s3") 150 cfg0 stSell).state.book "tok" =
      some { quantity := 0, avg_cost := 110 } := by
  have h := execute_sell_pnl (sigSell "s3") 150 cfg0 stSell 15 110 rfl
    (by simp [stSell]) (by simp [lookupPos, stSell, sigSell, sigBuy]) (by norm_num)
  have e3 : (sigSell "s3").token_id = "tok" := rfl
  rw [e3] at h
  refine ⟨?_, ?_, ?_, h.2⟩ <;> rw [h.1] <;> simp <;> norm_num

/-- Claim C4: in every reachable executor state no position quantity is
negative, and a sell signal against a token with no open quantity is
rejected as a no-op with the oversell reason code — no trade, no book
change, no clamping. -/
theorem position_quantity_nonneg :
    (∀ s, Reachable s → ∀ e ∈ s.book, 0 ≤ e.2.quantity) ∧
    (∀ (sig : Signal) (price : ℚ) (cfg : WeightConfig) (s : ExecState),
      sig.action = Action.sell → sig.id ∉ s.consumed →
      bookQty s.book sig.token_id ≤ 0 →
      (execute sig price cfg s).trade = none ∧
      (execute sig price cfg s).state.book = s.book ∧
      (execute sig price cfg s).reason = some RejectReason.oversellAttempted) := by
  constructor
  · exact fun s h => (reachable_inv s h).1
  · intro sig price cfg s hact hid hle
    cases hlp : lookupPos s.book sig.token_id with
    | none =>
      rw [execute_sell_none sig price cfg s hid hact hlp]
      exact ⟨rfl, rfl, rfl⟩
    | some p =>
      have hple : p.quantity ≤ 0 := by
        unfold bookQty at hle
        rwa [hlp] at hle
      rw [execute_sell_empty sig price cfg s p hid hact hlp hple]
      exact ⟨rfl, rfl, rfl⟩

/-- Witness for claim C4: the position opened by a first buy has
non-negative quantity, and a sell against the empty book is rejected as an
oversell no-op. -/
theorem position_quantity_nonneg_witness :
    (0:ℚ) ≤ (Position.mk 10 100).quantity ∧
    (execute (sigSell "s9") 100 cfg0 initialState).trade = none ∧
    (execute (sigSell "s9") 100 cfg0 initialState).state.book = initialState.book ∧
    (execute (sigSell "s9") 100 cfg0 initialState).reason =
      some RejectReason.oversellAttempted := by
  have hreach : Reachable (execute (sigBuy "s1") 100 cfg0 initialState).state :=
    Reachable.exec _ _ _ _ (by norm_num) (by norm_num [cfg0]) Reachable.init
  have hstep := execute_buy_ok (sigBuy "s1") 100 cfg0 initialState
    (by simp [initialState]) rfl
    (by simp [cfg0, positionCount, initialState])
    (by norm_num [tradeQty, cfg0])
  have hmem : ("tok", Position.mk 10 100) ∈
      (execute (sigBuy "s1") 100 cfg0 initialState).state.book := by
    rw [hstep]
    show _ ∈ setPos _ _ _
    norm_num [setPos, initialState, buyPosition, bookQty, bookAvg, lookupPos,
      tradeQty, cfg0, sigBuy]
  have h1 := position_quantity_nonneg.1 _ hreach _ hmem
  have h2 := position_quantity_nonneg.2 (sigSell "s9") 100 cfg0 initialState rfl
    (by simp [initialState]) (by simp [bookQty, lookupPos, initialState])
  exact ⟨h1, h2.1, h2.2.1, h2.2.2⟩

/-- Claim C7: in every reachable executor state the trade ledger never
carries two trades with the same signal id, and replaying a signal through
execute a second time yields no trade and no state change. -/
theorem at_most_one_trade_per_signal :
    (∀ s, Reachable s → (ledgerSignalIds s).Nodup) ∧
    (∀ (sig : Signal) (price : ℚ) (cfg : WeightConfig) (s : ExecState),
      sig.id ∈ s.consumed →
      (execute sig price cfg s).trade = none ∧
      (execute sig price cfg s).state = s) ∧
    (∀ (sig : Signal) (price price2 : ℚ) (cfg cfg2 : WeightConfig) (s : ExecState),
      (execute sig price2 cfg2 (execute sig price cfg s).state).trade = none ∧
      (execute sig price2 cfg2 (execute sig price cfg s).state).state =
        (execute sig price cfg s).state) := by
  have hreplay : ∀ (sig : Signal) (price : ℚ) (cfg : WeightConfig) (s : ExecState),
      sig.id ∈ s.consumed →
      (execute sig price cfg s).trade = none ∧
      (execute sig price cfg s).state = s := by
    intro sig price cfg s hid
    rw [execute_already sig price cfg s hid]
    exact ⟨rfl, rfl⟩
  refine ⟨fun s h => (reachable_inv s h).2.1, hreplay, ?_⟩
  intro sig price price2 cfg cfg2 s
  exact hreplay sig price2 cfg2 _ (execute_consumes sig price cfg s)

/-- Witness for claim C7: after buying on signal s1, replaying s1 produces
no trade and leaves the state unchanged, and the ledger still holds the
single signal id without duplicates. -/
theorem at_most_one_trade_per_signal_witness :
    (ledgerSignalIds (execute (sigBuy "s1") 130 cfg0
        (execute (sigBuy "s1") 100 cfg0 initialState).state).state).Nodup ∧
    (execute (sigBuy "s1") 130 cfg0
        (execute (sigBuy "s1") 100 cfg0 initialState).state).trade = none ∧
    (execute (sigBuy "s1") 130 cfg0
        (execute (sigBuy "s1") 100 cfg0 initialState).state).state =
      (execute (sigBuy "s1") 100 cfg0 initialState).state := by
  have hreach2 : Reachable (execute (sigBuy "s1") 130 cfg0
      (execute (sigBuy "s1") 100 cfg0 initialState).state).state :=
    Reachable.exec _ _ _ _ (by norm_num) (by norm_num [cfg0])
      (Reachable.exec _ _ _ _ (by norm_num) (by norm_num [cfg0]) Reachable.init)
  have h2 := at_most_one_trade_per_signal.2.2 (sigBuy "s1") 100 130 cfg0 cfg0
    initialState
  exact ⟨at_most_one_trade_per_signal.1 _ hreach2, h2.1, h2.2⟩

/-- Claim C8: the risk-exit check, which takes no incoming signal, closes
the full open position whenever the relative excursion of the current
price from the average cost breaches the stop-loss or take-profit bound,
appending a closed sell trade and zeroing the position. -/
theorem riskStep_closes_on_breach (cfg : WeightConfig) (price : ℚ) (tid : String)
    (s : ExecState) (q a : ℚ)
    (hlp : lookupPos s.book tid = some { quantity := q, avg_cost := a })
    (hq : 0 < q)
    (hbr : (price - a) / a ≤ -cfg.stop_loss_pct ∨
      cfg.take_profit_pct ≤ (price - a) / a) :
    (riskStep cfg price tid s).trade = some
      { id := tid
        signal_id := none
        token_id := tid
        action := TradeAction.sell
        quantity := q
        price := price
        total_cost := none
        total_proceeds := some (q * price)
        pnl := some ((price - a) * q)
        pnl_pct := some ((price - a) * q / (q * a))
        composite_score := 0
        status := TradeStatus.closed } ∧
    lookupPos (riskStep cfg price tid s).state.book tid =
      some { quantity := 0, avg_cost := a } := by
  have hc : 0 < (Position.mk q a).quantity ∧
      riskTriggered cfg price (Position.mk q a) = true := by
    refine ⟨hq, ?_⟩
    simp only [riskTriggered, Bool.or_eq_true, decide_eq_true_eq]
    exact hbr
  rw [riskStep_close cfg price tid s _ hlp hc]
  exact ⟨rfl, lookupPos_setPos_self _ _ _⟩

/-- The executor state holding a position of 5 units at average cost 100
for the token tok. -/
def stRisk : ExecState :=
  { book := [("tok", { quantity := 5, avg_cost := 100 })]
    trades := []
    consumed := [] }

/-- Witness for claim C8: a position bought at average cost 100 under a
stop loss of 0.1 is closed by the risk check at price 90. -/
theorem riskStep_closes_on_breach_witness :
    ((riskStep cfg0 90 "tok" stRisk).trade.map Trade.quantity = some 5) ∧
    ((riskStep cfg0 90 "tok" stRisk).trade.map Trade.status =
      some TradeStatus.closed) ∧
    lookupPos (riskStep cfg0 90 "tok" stRisk).state.book "tok" =
      some { quantity := 0, avg_cost := 100 } := by
  have h := riskStep_closes_on_breach cfg0 90 "tok" stRisk 5 100
    (by simp [lookupPos, stRisk]) (by norm_num)
    (Or.inl (by norm_num [cfg0]))
  refine ⟨?_, ?_, h.2⟩ <;> rw [h.1] <;> rfl

/-- A signal document with every optional field absent. -/
def docEmpty : SignalDoc :=
  { id := "d0"
    token_id := "tok"
    ml_prob := none
    rule_score := none
    sentiment_score := none
    event_score := none
    composite_score := none
    action := none
    confidence := none
    weights_used := none
    min_threshold := none }

/-- Claim C9: convertFirestoreSignal is total over arbitrary signal
documents; absent numeric fields become zero, an absent action becomes
hold, an absent weights_used becomes the fixed default snapshot
0.4 / 0.3 / 0.2 / 0.1, and an absent min_threshold becomes 0.85. -/
theorem convertFirestoreSignal_defaults (doc : SignalDoc) :
    (doc.ml_prob = none → (convertFirestoreSignal doc).ml_prob = 0) ∧
    (doc.rule_score = none → (convertFirestoreSignal doc).rule_score = 0) ∧
    (doc.sentiment_score = none → (convertFirestoreSignal doc).sentiment_score = 0) ∧
    (doc.event_score = none → (convertFirestoreSignal doc).event_score = 0) ∧
    (doc.composite_score = none → (convertFirestoreSignal doc).composite_score = 0) ∧
    (doc.confidence = none → (convertFirestoreSignal doc).confidence = 0) ∧
    (doc.action = none → (convertFirestoreSignal doc).action = Action.hold) ∧
    (doc.weights_used = none → (convertFirestoreSignal doc).weights_used =
      { ml_weight := 0.4, rule_weight := 0.3, sentiment_weight := 0.2,
        event_weight := 0.1 }) ∧
    (doc.min_threshold = none → (convertFirestoreSignal doc).min_threshold = 0.85) := by
  refine ⟨?_, ?_, ?_, ?_, ?_, ?_, ?_, ?_, ?_⟩ <;> intro h <;>
    simp [convertFirestoreSignal, jsOr, h]

/-- Witness for claim C9: converting the all-absent document yields the
defaulted signal fields. -/
theorem convertFirestoreSignal_defaults_witness :
    (convertFirestoreSignal docEmpty).ml_prob = 0 ∧
    (convertFirestoreSignal docEmpty).action = Action.hold ∧
    (convertFirestoreSignal docEmpty).weights_used =
      { ml_weight := 0.4, rule_weight := 0.3, sentiment_weight := 0.2,
        event_weight := 0.1 } ∧
    (convertFirestoreSignal docEmpty).min_threshold = 0.85 := by
  have h := convertFirestoreSignal_defaults docEmpty
  exact ⟨h.1 rfl, h.2.2.2.2.2.2.1 rfl, h.2.2.2.2.2.2.2.1 rfl, h.2.2.2.2.2.2.2.2 rfl⟩

/-- A buy trade of ten units at price one hundred for the token tok. -/
def tbuy1 : Trade :=
  { id := "t1"
    signal_id := some "s1"
    token_id := "tok"
    action := TradeAction.buy
    quantity := 10
    price := 100
    total_cost := some 1000
    total_proceeds := none
    pnl := none
    pnl_pct := none
    composite_score := 0.9
    status := TradeStatus.opened }

/-- A buy trade of five units at price one hundred thirty for the token
tok. -/
def tbuy2 : Trade :=
  { tbuy1 with
    id := "t2"
    signal_id := some "s2"
    quantity := 5
    price := 130
    total_cost := some 650 }

/-- The position held after the two buys tbuy1 and tbuy2: its stored
avg_cost is the quantity-weighted mean 110. -/
def posC10 : PortfolioPosition :=
  { token_id := "tok"
    quantity := 15
    avg_cost := 110
    current_value := 1650
    cost_basis := 1650
    pnl := 0
    pnl_pct := 0 }

/-- Claim C10: calculatePositionMetrics is total — with no buy trades
avgBuyPrice is zero and with no sell trades avgSellPrice is zero, otherwise
the averages are the unweighted arithmetic means of the matching trade
prices; consequently avgBuyPrice can differ from the stored quantity-
weighted avg_cost when buy quantities differ. -/
theorem calculatePositionMetrics_total (ts : List Trade) (p : PortfolioPosition) :
    (((getTradesForPosition ts p.token_id).filter
        (fun t => t.action == TradeAction.buy)).length = 0 →
      (calculatePositionMetrics ts p).avgBuyPrice = 0) ∧
    (((getTradesForPosition ts p.token_id).filter
        (fun t => t.action == TradeAction.sell)).length = 0 →
      (calculatePositionMetrics ts p).avgSellPrice = 0) ∧
    (0 < ((getTradesForPosition ts p.token_id).filter
        (fun t => t.action == TradeAction.buy)).length →
      (calculatePositionMetrics ts p).avgBuyPrice =
        (((getTradesForPosition ts p.token_id).filter
            (fun t => t.action == TradeAction.buy)).map (fun t => t.price)).sum /
          ((((getTradesForPosition ts p.token_id).filter
            (fun t => t.action == TradeAction.buy)).length : ℚ))) ∧
    (0 < ((getTradesForPosition ts p.token_id).filter
        (fun t => t.action == TradeAction.sell)).length →
      (calculatePositionMetrics ts p).avgSellPrice =
        (((getTradesForPosition ts p.token_id).filter
            (fun t => t.action == TradeAction.sell)).map (fun t => t.price)).sum /
          ((((getTradesForPosition ts p.token_id).filter
            (fun t => t.action == TradeAction.sell)).length : ℚ))) ∧
    (tbuy1 ∈ [tbuy1, tbuy2] ∧ tbuy2 ∈ [tbuy1, tbuy2] ∧
      tbuy1.action = TradeAction.buy ∧ tbuy2.action = TradeAction.buy ∧
      tbuy1.quantity ≠ tbuy2.quantity ∧
      posC10.avg_cost = (tbuy1.quantity * tbuy1.price + tbuy2.quantity * tbuy2.price) /
        (tbuy1.quantity + tbuy2.quantity) ∧
      (calculatePositionMetrics [tbuy1, tbuy2] posC10).avgBuyPrice ≠ posC10.avg_cost) := by
  refine ⟨?_, ?_, ?_, ?_, ?_⟩
  · intro h
    simp only [calculatePositionMetrics, h]
    norm_num
  · intro h
    simp only [calculatePositionMetrics, h]
    norm_num
  · intro h
    simp only [calculatePositionMetrics]
    rw [if_pos h]
  · intro h
    simp only [calculatePositionMetrics]
    rw [if_pos h]
  · refine ⟨by simp, by simp, rfl, rfl, by norm_num [tbuy1, tbuy2], ?_, ?_⟩
    · norm_num [tbuy1, tbuy2, posC10]
    · simp only [calculatePositionMetrics, getTradesForPosition, tbuy1, tbuy2, posC10]
      norm_num

/-- Witness for claim C10: on an empty trade list both averages are zero,
and on the two concrete buys the unweighted mean price is 115 while the
stored average cost is 110. -/
theorem calculatePositionMetrics_total_witness :
    (calculatePositionMetrics [] posC10).avgBuyPrice = 0 ∧
    (calculatePositionMetrics [] posC10).avgSellPrice = 0 ∧
    (calculatePositionMetrics [tbuy1, tbuy2] posC10).avgBuyPrice = 115 := by
  have h0 := calculatePositionMetrics_total [] posC10
  have h2 := calculatePositionMetrics_total [tbuy1, tbuy2] posC10
  refine ⟨h0.1 (by simp [getTradesForPosition]),
    h0.2.1 (by simp [getTradesForPosition]), ?_⟩
  rw [h2.2.2.1 (by simp [getTradesForPosition, tbuy1, tbuy2, posC10])]
  simp only [getTradesForPosition, tbuy1, tbuy2, posC10]
  norm_num

end ModaCrypto
